import Mathlib

/-!
Verification of the adversarial robustness evaluator of TraeGuard
(src/reliability/adversarial_tests.py).

Python strings are modelled as `List Char` (the clauses handled by the module
are ASCII; character classes of the `re` module are modelled on the ASCII
fragment).  Floating point scores are modelled as exact rationals; the one
square-root-valued quantity (cosine similarity) is modelled as a real number.
CPython randomness (`random.seed` / `random.choice`) is modelled bit-exactly:
the Mersenne Twister MT19937, CPython integer seeding, `getrandbits` and the
rejection-sampling `_randbelow` are embedded below, so that claims about the
default construction seed 42 can be evaluated concretely.
-/

namespace TraeGuard

/- Rational arithmetic must evaluate on concrete inputs; these operations are
shipped irreducible only to keep `simp`-normal forms small. -/
attribute [local semireducible] Rat.add Rat.sub Rat.mul Rat.inv

set_option maxRecDepth 40000
set_option maxHeartbeats 4000000

/-! ## Python string primitives (ASCII fragment) -/

/-- Model of `str.lower` on one character (ASCII). -/
def lowerChar (c : Char) : Char :=
  if 'A' ≤ c ∧ c ≤ 'Z' then Char.ofNat (c.toNat + 32) else c

/-- Model of `str.upper` on one character (ASCII). -/
def upperChar (c : Char) : Char :=
  if 'a' ≤ c ∧ c ≤ 'z' then Char.ofNat (c.toNat - 32) else c

/-- Word character of the `re` module: `[a-zA-Z0-9_]` (ASCII fragment of `\w`). -/
def isWordChar (c : Char) : Bool :=
  ('a' ≤ c && c ≤ 'z') || ('A' ≤ c && c ≤ 'Z') || ('0' ≤ c && c ≤ '9') || c = '_'

/-- Whitespace of the `re` module (ASCII fragment of `\s`). -/
def isSpaceChar (c : Char) : Bool :=
  c = ' ' || c = '\t' || c = '\n' || c = '\r' || c = Char.ofNat 11 || c = Char.ofNat 12

/-- Digit character, class `\d` (ASCII fragment). -/
def isDigitChar (c : Char) : Bool := '0' ≤ c && c ≤ '9'

/-- Model of `str.lower`. -/
def pyLower (s : List Char) : List Char := s.map lowerChar

/-- Model of `str.capitalize`: first character uppercased, the rest lowercased. -/
def pyCapitalize : List Char → List Char
  | [] => []
  | c :: t => upperChar c :: t.map lowerChar

/-- Character comparison, case-insensitive when the flag is set
(`re.IGNORECASE`, ASCII fragment). -/
def charEqCI (ci : Bool) (a b : Char) : Bool :=
  if ci then lowerChar a = lowerChar b else a = b

/-- Does `pat` match a prefix of `s` (character-wise, optionally
case-insensitively)? -/
def prefixMatch (ci : Bool) : List Char → List Char → Bool
  | [], _ => true
  | _ :: _, [] => false
  | p :: ps, c :: cs => charEqCI ci p c && prefixMatch ci ps cs

/-- Model of the Python substring test `needle in hay` (case-sensitive). -/
def containsStr : List Char → List Char → Bool
  | hay, needle =>
    match hay with
    | [] => needle.isEmpty
    | _ :: t => prefixMatch false needle hay || containsStr t needle

/-- Number of positions of `hay` at which `needle` matches (used to state
"occurs exactly once"). -/
def countOccur : List Char → List Char → Nat
  | [], _ => 0
  | c :: t, needle => (if prefixMatch false needle (c :: t) then 1 else 0) + countOccur t needle

/-- Length of the maximal word-character prefix (greedy `\w+`). -/
def wordRun : List Char → Nat
  | [] => 0
  | c :: t => if isWordChar c then wordRun t + 1 else 0

/-- Length of the maximal digit prefix (greedy `\d+`). -/
def digitRun : List Char → Nat
  | [] => 0
  | c :: t => if isDigitChar c then digitRun t + 1 else 0

/-- Length of the maximal whitespace prefix (greedy `\s+`). -/
def spaceRun : List Char → Nat
  | [] => 0
  | c :: t => if isSpaceChar c then spaceRun t + 1 else 0

/-!
## Left-to-right scan-and-substitute framework

Models `re.sub` / `re.search` / `str.replace` for the specific patterns the
source uses.  A matcher receives the word-character status of the previous
input character (for `\b`) and the remaining input; on a match it returns the
number of consumed characters (always at least one for the patterns below)
and the replacement text.  As in `re.sub`, scanning resumes after the matched
span of the original text and matches never overlap.
-/

/-- Substitute every non-overlapping match, scanning left to right.  The fuel
argument dominates the input length, so the recursion is structural. -/
def subScan (m : Bool → List Char → Option (Nat × List Char)) :
    Nat → Bool → List Char → List Char
  | 0, _, rest => rest
  | _ + 1, _, [] => []
  | fuel + 1, prevW, c :: rest =>
    match m prevW (c :: rest) with
    | some (k, repl) =>
        repl ++ subScan m fuel (isWordChar ((c :: rest).getD (k - 1) ' ')) (rest.drop (k - 1))
    | none => c :: subScan m fuel (isWordChar c) rest

/-- Does the pattern match anywhere (model of `re.search` as a Boolean)? -/
def searchScan (m : Bool → List Char → Option (Nat × List Char)) :
    Nat → Bool → List Char → Bool
  | 0, _, _ => false
  | _ + 1, _, [] => false
  | fuel + 1, prevW, c :: rest =>
    (m prevW (c :: rest)).isSome || searchScan m fuel (isWordChar c) rest

/-- Run a substitution over a whole string (initial position has no preceding
word character). -/
def pySub (m : Bool → List Char → Option (Nat × List Char)) (s : List Char) : List Char :=
  subScan m (s.length + 1) false s

/-- Run a search over a whole string. -/
def pySearch (m : Bool → List Char → Option (Nat × List Char)) (s : List Char) : Bool :=
  searchScan m (s.length + 1) false s

/-- Matcher for a literal substring (model of `str.replace`). -/
def literalMatcher (needle repl : List Char) (_prevW : Bool) (s : List Char) :
    Option (Nat × List Char) :=
  if needle ≠ [] ∧ prefixMatch false needle s then some (needle.length, repl) else none

/-- Model of `str.replace(needle, repl)` (all occurrences, left to right). -/
def pyReplace (s needle repl : List Char) : List Char :=
  pySub (literalMatcher needle repl) s

/-- Is the position after the first `k` characters of `s` a `\b` boundary,
assuming the character before it is a word character? -/
def boundaryAfter (s : List Char) (k : Nat) : Bool :=
  match s.drop k with
  | [] => true
  | c :: _ => !(isWordChar c)

/-- Matcher for `\b`word`\b` where the word starts and ends with word
characters (all words the source uses do). -/
def wordMatcher (ci : Bool) (w repl : List Char) (prevW : Bool) (s : List Char) :
    Option (Nat × List Char) :=
  if !prevW && !w.isEmpty && prefixMatch ci w s && boundaryAfter s w.length then
    some (w.length, repl)
  else none

/-- Model of `re.sub(r"\b" + w + r"\b", repl, s)`. -/
def subWord (ci : Bool) (w repl s : List Char) : List Char :=
  pySub (wordMatcher ci w repl) s

/-- Model of `re.search(r"\b" + w + r"\b", s)` as a Boolean. -/
def searchWord (ci : Bool) (w s : List Char) : Bool :=
  pySearch (wordMatcher ci w []) s

/-- Matcher for `\b\d+\s+unit s?\b` with `re.IGNORECASE` (the duration
patterns `\d+\s+days?` and friends).  The optional `s` is taken greedily and
given back if the trailing boundary then fails, exactly as the regex engine
backtracks. -/
def durMatcher (unit repl : List Char) (prevW : Bool) (s : List Char) :
    Option (Nat × List Char) :=
  if prevW then none else
  let d := digitRun s
  if d = 0 then none else
  let s1 := s.drop d
  let w := spaceRun s1
  if w = 0 then none else
  let s2 := s1.drop w
  if prefixMatch true unit s2 then
    match s2.drop unit.length with
    | [] => some (d + w + unit.length, repl)
    | c :: rest =>
      if lowerChar c = 's' then
        if boundaryAfter (c :: rest) 1 then some (d + w + unit.length + 1, repl) else none
      else if isWordChar c then none
      else some (d + w + unit.length, repl)
  else none

/-- Matcher for `\b\d+%\b`: after the percent sign, `\b` requires a word
character (the percent sign itself is not one), so a percentage followed by a
space, punctuation or end of string does not match. -/
def pctMatcher (repl : List Char) (prevW : Bool) (s : List Char) :
    Option (Nat × List Char) :=
  if prevW then none else
  let d := digitRun s
  if d = 0 then none else
  match s.drop d with
  | '%' :: c :: _ => if isWordChar c then some (d + 1, repl) else none
  | _ => none

/-- Matcher for `\bno\s+longer\b` with `re.IGNORECASE`. -/
def noLongerMatcher (prevW : Bool) (s : List Char) : Option (Nat × List Char) :=
  if prevW then none else
  if prefixMatch true ("no".toList) s then
    let s1 := s.drop 2
    let w := spaceRun s1
    if w = 0 then none else
    let s2 := s1.drop w
    if prefixMatch true ("longer".toList) s2 && boundaryAfter s2 6 then
      some (2 + w + 6, [])
    else none
  else none

/-- Matcher for `we (\w+)` with replacement `our company \1s` (no word
boundary in the pattern: it also fires inside longer words). -/
def weMatcher (_prevW : Bool) (s : List Char) : Option (Nat × List Char) :=
  match s with
  | 'w' :: 'e' :: ' ' :: rest =>
    let r := wordRun rest
    if r = 0 then none
    else some (3 + r, ("our company ".toList ++ rest.take r ++ ['s']))
  | _ => none

/-- Matcher for `your (\w+)` with replacement `the user\x5c\x27s \1`.  The raw
replacement template of the source is `the user\'s \1`; the `re` module keeps
the unknown escape `\'` literally, so the produced text really contains a
backslash followed by an apostrophe. -/
def yourMatcher (_prevW : Bool) (s : List Char) : Option (Nat × List Char) :=
  match s with
  | 'y' :: 'o' :: 'u' :: 'r' :: ' ' :: rest =>
    let r := wordRun rest
    if r = 0 then none
    else some (5 + r, ("the user\x5c\x27s ".toList ++ rest.take r))
  | _ => none

/-!
## CPython `random`: MT19937, seeding, `getrandbits`, `_randbelow`, `choice`

The 624-word generator state is packed little-endian into a single natural
number (word `i` occupies bits `32*i .. 32*i+31`), which the kernel evaluates
efficiently. -/

/-- Mask of 32 one bits. -/
def mask32 : Nat := 4294967295

/-- Read word `i` of the packed state. -/
def mtGet (w i : Nat) : Nat := (w >>> (32 * i)) &&& mask32

/-- Write word `i` of the packed state (the new value must fit in 32 bits). -/
def mtSet (w i v : Nat) : Nat := w - (mtGet w i <<< (32 * i)) + (v <<< (32 * i))

/-- Iterate `f` on indices `i, i+1, ..., i+k-1` over a packed-state
accumulator.  The self-comparison guard is always true; it forces the
accumulator to a numeral at every step so that kernel evaluation of the many
seeding iterations stays shallow. -/
def upFoldN (f : Nat → Nat → Nat) : Nat → Nat → Nat → Nat
  | _, 0, a => a
  | i, k + 1, a => if a.beq a then upFoldN f (i + 1) k (f i a) else 0

/-- `init_genrand` of MT19937. -/
def initGenrand (s : Nat) : Nat :=
  upFoldN
    (fun i w =>
      let prev := mtGet w (i - 1)
      mtSet w i ((1812433253 * (prev ^^^ (prev >>> 30)) + i) &&& mask32))
    1 623 (s &&& mask32)

/-- First mixing loop of `init_by_array`. -/
def ibaLoop1 (key : List Nat) (klen : Nat) : Nat → Nat × Nat × Nat → Nat × Nat × Nat
  | 0, st => st
  | k + 1, (w, i, j) =>
    if w.beq w then
      let prev := mtGet w (i - 1)
      let v := ((mtGet w i ^^^ ((prev ^^^ (prev >>> 30)) * 1664525)) + key.getD j 0 + j) &&& mask32
      let w1 := mtSet w i v
      let i1 := i + 1
      let wi := if i1 ≥ 624 then (mtSet w1 0 (mtGet w1 623), 1) else (w1, i1)
      let j1 := if j + 1 ≥ klen then 0 else j + 1
      ibaLoop1 key klen k (wi.1, wi.2, j1)
    else (0, 0, 0)

/-- Second mixing loop of `init_by_array` (32-bit wrap-around subtraction). -/
def ibaLoop2 : Nat → Nat × Nat → Nat × Nat
  | 0, st => st
  | k + 1, (w, i) =>
    if w.beq w then
      let prev := mtGet w (i - 1)
      let v := ((mtGet w i ^^^ ((prev ^^^ (prev >>> 30)) * 1566083941)) + 4294967296 - i) &&& mask32
      let w1 := mtSet w i v
      let i1 := i + 1
      let wi := if i1 ≥ 624 then (mtSet w1 0 (mtGet w1 623), 1) else (w1, i1)
      ibaLoop2 k wi
    else (0, 0)

/-- Split a non-negative integer seed into its little-endian 32-bit words,
as CPython `random.seed` does. -/
def natToKeyAux : Nat → Nat → List Nat
  | 0, _ => []
  | _ + 1, 0 => []
  | fuel + 1, n => (n &&& mask32) :: natToKeyAux fuel (n >>> 32)

/-- CPython key for an integer seed. -/
def natToKey (n : Nat) : List Nat := if n = 0 then [0] else natToKeyAux n n

/-- `init_by_array` of MT19937. -/
def initByArray (key : List Nat) : Nat :=
  let w := initGenrand 19650218
  let st1 := ibaLoop1 key key.length 624 (w, 1, 0)
  let st2 := ibaLoop2 623 (st1.1, st1.2.1)
  mtSet st2.1 0 2147483648

/-- The generator state: packed word array plus the output index `mti`. -/
structure MTState where
  words : Nat
  mti : Nat
deriving DecidableEq

/-- Model of `random.seed(n)` for a non-negative integer `n`: the state after
seeding, with `mti` at the end of the block so the first draw twists. -/
def pySeed (n : Nat) : MTState := ⟨initByArray (natToKey n), 624⟩

/-- One step of the MT19937 twist, updating word `kk` in place. -/
def twistOne (w kk : Nat) : Nat :=
  let y := (mtGet w kk &&& 2147483648) ||| (mtGet w ((kk + 1) % 624) &&& 2147483647)
  let v := mtGet w ((kk + 397) % 624) ^^^ (y >>> 1) ^^^ (if y &&& 1 = 1 then 2567483615 else 0)
  mtSet w kk v

/-- The MT19937 output tempering. -/
def mtTemper (y : Nat) : Nat :=
  let y1 := y ^^^ (y >>> 11)
  let y2 := y1 ^^^ ((y1 <<< 7) &&& 2636928640)
  let y3 := y2 ^^^ ((y2 <<< 15) &&& 4022730752)
  y3 ^^^ (y3 >>> 18)

/-- `genrand_uint32`: twist when the block is exhausted, then output the next
tempered word. -/
def genrand (st : MTState) : Nat × MTState :=
  let st1 := if st.mti ≥ 624 then MTState.mk (upFoldN (fun kk w => twistOne w kk) 0 624 st.words) 0 else st
  (mtTemper (mtGet st1.words st1.mti), ⟨st1.words, st1.mti + 1⟩)

/-- `getrandbits(k)` for `0 < k ≤ 32`: the top `k` bits of one output word. -/
def getrandbits (k : Nat) (st : MTState) : Nat × MTState :=
  let (y, st1) := genrand st
  (y >>> (32 - k), st1)

/-- Number of bits of `n` (`int.bit_length`), with ample fuel. -/
def bitLengthAux : Nat → Nat → Nat
  | 0, _ => 0
  | _ + 1, 0 => 0
  | fuel + 1, n => bitLengthAux fuel (n >>> 1) + 1

/-- `int.bit_length` for the small values `_randbelow` needs. -/
def bitLength (n : Nat) : Nat := bitLengthAux 64 n

/-- Rejection loop of `_randbelow_with_getrandbits`, with fuel; CPython loops
until a draw is below `n`, and the fuel given below is never exhausted on the
draws this development evaluates. -/
def randbelowAux (n k : Nat) : Nat → MTState → Nat × MTState
  | 0, st => (0, st)
  | fuel + 1, st =>
    let (r, st1) := getrandbits k st
    if r < n then (r, st1) else randbelowAux n k fuel st1

/-- Model of `random._randbelow(n)`. -/
def randbelow (n : Nat) (st : MTState) : Nat × MTState :=
  randbelowAux n (bitLength n) 64 st

/-- Model of `random.choice` on a list of strings. -/
def pychoice (l : List (List Char)) (st : MTState) : List Char × MTState :=
  let p := randbelow l.length st
  (l.getD p.1 [], p.2)

/-!
## The adversarial tester: data model and variant generators

The tables below are the construction-time constants of `AdversarialTester`
(`paraphrase_templates`, `ambiguity_words`, `negation_words`,
`company_replacements`, `duration_swaps`), in Python dict insertion order.
The generator methods read and advance the module-level `random` stream; they
are modelled as functions threading an explicit `MTState`.
-/

/-- A generated variant of an original clause (`ClauseVariant`). -/
structure ClauseVariant where
  text : List Char
  variant_type : List Char
  description : List Char
deriving DecidableEq

/-- `paraphrase_templates`. -/
def paraphrase_templates : List (List Char × List (List Char)) :=
  [("collect".toList, ["gather".toList, "obtain".toList, "acquire".toList, "retrieve".toList]),
   ("use".toList, ["utilize".toList, "employ".toList, "apply".toList, "leverage".toList]),
   ("share".toList, ["disclose".toList, "provide".toList, "transmit".toList, "distribute".toList]),
   ("store".toList, ["retain".toList, "keep".toList, "save".toList, "maintain".toList]),
   ("process".toList, ["handle".toList, "manage".toList, "analyze".toList, "evaluate".toList]),
   ("protect".toList, ["safeguard".toList, "secure".toList, "defend".toList, "shield".toList])]

/-- `ambiguity_words`. -/
def ambiguity_words : List (List Char × List (List Char)) :=
  [("specific".toList, ["certain".toList, "particular".toList, "specific".toList]),
   ("exactly".toList, ["approximately".toList, "roughly".toList, "about".toList]),
   ("immediately".toList, ["promptly".toList, "soon".toList, "in a timely manner".toList]),
   ("always".toList, ["usually".toList, "generally".toList, "typically".toList]),
   ("all".toList, ["most".toList, "many".toList, "the majority of".toList]),
   ("required".toList, ["recommended".toList, "suggested".toList, "advised".toList])]

/-- `negation_words` (verb to negated form, insertion order). -/
def negation_words : List (List Char × List Char) :=
  [("will".toList, "will not".toList),
   ("may".toList, "may not".toList),
   ("can".toList, "cannot".toList),
   ("do".toList, "do not".toList),
   ("does".toList, "does not".toList),
   ("collect".toList, "do not collect".toList),
   ("use".toList, "do not use".toList),
   ("share".toList, "do not share".toList),
   ("store".toList, "do not store".toList)]

/-- `company_replacements` of `generate_entity_swapped_variant`. -/
def company_replacements : List (List Char × List (List Char)) :=
  [("Google".toList, ["Microsoft".toList, "Apple".toList, "Amazon".toList, "Meta".toList]),
   ("Facebook".toList, ["Twitter".toList, "LinkedIn".toList, "Instagram".toList, "TikTok".toList]),
   ("Amazon".toList, ["eBay".toList, "Walmart".toList, "Target".toList, "Best Buy".toList]),
   ("Apple".toList, ["Samsung".toList, "Google".toList, "Microsoft".toList, "Sony".toList]),
   ("Microsoft".toList, ["Google".toList, "Apple".toList, "IBM".toList, "Oracle".toList])]

/-- `duration_swaps` of `generate_entity_swapped_variant`. -/
def duration_swaps : List (List Char × List Char) :=
  [("30 days".toList, "60 days".toList),
   ("60 days".toList, "90 days".toList),
   ("90 days".toList, "120 days".toList),
   ("1 year".toList, "2 years".toList),
   ("2 years".toList, "3 years".toList)]

/-- The synonym-replacement loop of `generate_paraphrased_variant`: for each
`(key, synonyms)` pair in order, when `key` occurs as a substring the text is
rewritten by `text.replace(key, random.choice(synonyms))`. -/
def paraLoop : List (List Char × List (List Char)) → List Char → MTState → List Char × MTState
  | [], text, st => (text, st)
  | (key, syns) :: rest, text, st =>
    if containsStr text key then
      let c := pychoice syns st
      paraLoop rest (pyReplace text key c.1) c.2
    else
      paraLoop rest text st

/-- `generate_paraphrased_variant`. -/
def generate_paraphrased_variant (st : MTState) (clause : List Char) :
    ClauseVariant × MTState :=
  let t0 := pyLower clause
  let p := paraLoop paraphrase_templates t0 st
  let t2 := pySub weMatcher p.1
  let t3 := pySub yourMatcher t2
  let t4 := pyCapitalize t3
  (⟨t4, "paraphrased".toList,
    "Clause with privacy verbs replaced by synonyms and minor syntactic changes".toList⟩,
   p.2)

/-- The verb-negation loop of `generate_negation_variant`: the first pair
whose word-bounded case-insensitive pattern is found is substituted (all of
its occurrences, as `re.sub` does) and the loop breaks. -/
def negLoop : List (List Char × List Char) → List Char → List Char
  | [], text => text
  | (pos, neg) :: rest, text =>
    if searchWord true pos text then subWord true pos neg text
    else negLoop rest text

/-- `generate_negation_variant` (uses no randomness). -/
def generate_negation_variant (clause : List Char) : ClauseVariant :=
  let t1 := negLoop negation_words clause
  let t2 :=
    if containsStr (pyLower t1) ("will".toList) &&
       !containsStr (pyLower t1) ("will not".toList) then
      subWord true ("will".toList) ("will not".toList) t1
    else if pySearch noLongerMatcher t1 then
      pySub noLongerMatcher t1
    else t1
  ⟨t2, "negation_flipped".toList,
   "Clause with negations added to key action verbs".toList⟩

/-- The vague-word loop of `generate_ambiguous_variant`: for each
`(specific, options)` pair in order, when `specific` occurs as a substring of
the lowercased text, a seeded-random vague option replaces the word-bounded
case-insensitive occurrences. -/
def ambLoop : List (List Char × List (List Char)) → List Char → MTState → List Char × MTState
  | [], text, st => (text, st)
  | (specific, options) :: rest, text, st =>
    if containsStr (pyLower text) specific then
      let c := pychoice options st
      ambLoop rest (subWord true specific c.1 text) c.2
    else
      ambLoop rest text st

/-- `generate_ambiguous_variant`. -/
def generate_ambiguous_variant (st : MTState) (clause : List Char) :
    ClauseVariant × MTState :=
  let p := ambLoop ambiguity_words clause st
  let t2 := pySub (durMatcher ("day".toList) ("a reasonable period".toList)) p.1
  let t3 := pySub (durMatcher ("week".toList) ("some time".toList)) t2
  let t4 := pySub (durMatcher ("month".toList) ("an extended period".toList)) t3
  let t5 := pySub (pctMatcher ("a significant percentage".toList)) t4
  (⟨t5, "ambiguous".toList,
    "Clause with specific terms replaced by vague language".toList⟩,
   p.2)

/-- The company-name loop of `generate_entity_swapped_variant`. -/
def companyLoop : List (List Char × List (List Char)) → List Char → MTState → List Char × MTState
  | [], text, st => (text, st)
  | (original, repls) :: rest, text, st =>
    if containsStr text original then
      let c := pychoice repls st
      companyLoop rest (pyReplace text original c.1) c.2
    else
      companyLoop rest text st

/-- The duration-swap loop of `generate_entity_swapped_variant`: the first
pair whose key occurs as a substring is replaced, then the loop breaks. -/
def durationSwapLoop : List (List Char × List Char) → List Char → List Char
  | [], text => text
  | (original, replacement) :: rest, text =>
    if containsStr text original then pyReplace text original replacement
    else durationSwapLoop rest text

/-- `generate_entity_swapped_variant`.  Note the two year substitutions are
applied in sequence: first `\b2023\b` becomes `2024`, then `\b2024\b`
becomes `2025`, so the second also rewrites the output of the first. -/
def generate_entity_swapped_variant (st : MTState) (clause : List Char) :
    ClauseVariant × MTState :=
  let p := companyLoop company_replacements clause st
  let t2 := subWord false ("Company".toList) ("Organization".toList) p.1
  let t3 := subWord false ("Corporation".toList) ("Entity".toList) t2
  let t4 := subWord false ("Inc".toList) ("LLC".toList) t3
  let t5 := subWord false ("2023".toList) ("2024".toList) t4
  let t6 := subWord false ("2024".toList) ("2025".toList) t5
  let t7 := durationSwapLoop duration_swaps t6
  (⟨t7, "entity_swapped".toList,
    "Clause with company names, dates, and durations swapped".toList⟩,
   p.2)

/-- `generate_variants` with the default `num_variants = 4`: the four
generators run in fixed order over the shared random stream.  In the model
the generators are total, matching the observed behavior that none of them
raises, so no variant is ever skipped. -/
def generate_variants (st : MTState) (clause : List Char) :
    List ClauseVariant × MTState :=
  let p1 := generate_paraphrased_variant st clause
  let v2 := generate_negation_variant clause
  let p3 := generate_ambiguous_variant p1.2 clause
  let p4 := generate_entity_swapped_variant p3.2 clause
  ([p1.1, v2, p3.1, p4.1], p4.2)

/-!
## Classification results, robustness metrics, per-clause tester, suite

The classifier (`classify_sentences` plus the explainer probabilities, built
in `classify_clause`) and the label table `id2label` live outside this
module; per the specification they are an injected capability.  They are
modelled as parameters: an ordered label list and a function from clause text
to either a `ClassificationResult` or an error message (a raised exception).
Floating point scores are modelled as exact rationals; the cosine similarity,
which involves a square root, is real-valued.
-/

/-- `ClassificationResult`. -/
structure ClassificationResult where
  text : List Char
  top1_label : List Char
  rating : List Char
  case_score : ℚ
  confidence : ℚ
  top3 : List Char
  probability_distribution : List ℚ
deriving DecidableEq

/-- `np.dot` on equal-length vectors. -/
def dotQ (vec1 vec2 : List ℚ) : ℚ := (List.zipWith (fun a b => a * b) vec1 vec2).sum

/-- Sum of squares of a vector. -/
def sumsqQ (v : List ℚ) : ℚ := (v.map (fun x => x * x)).sum

/-- `np.linalg.norm`: the Euclidean norm. -/
noncomputable def normR (v : List ℚ) : ℝ := Real.sqrt ((sumsqQ v : ℚ) : ℝ)

section
open Classical

/-- `_cosine_similarity`: dot product over the product of norms, defined as
`0.0` when either norm is zero, so the division is never performed with a
zero denominator. -/
noncomputable def _cosine_similarity (vec1 vec2 : List ℚ) : ℝ :=
  let dot_product := ((dotQ vec1 vec2 : ℚ) : ℝ)
  let norm1 := normR vec1
  let norm2 := normR vec2
  if norm1 = 0 ∨ norm2 = 0 then 0 else dot_product / (norm1 * norm2)

end

/-- One entry of `variant_results` inside the metrics. -/
structure VariantEntry where
  text : List Char
  variant_type : List Char
  top1_label : List Char
  rating : List Char
  case_score : ℚ
  confidence : ℚ
  risk_drift : ℚ
  label_stability : ℚ
  confidence_stability : ℚ
  probability_similarity : ℝ

/-- `RobustnessMetrics`. -/
structure RobustnessMetrics where
  risk_drift_score : ℚ
  label_stability_score : ℚ
  confidence_stability : ℚ
  probability_similarity : ℝ
  variant_results : List VariantEntry

/-- `np.mean` of a rational list (callers guard against the empty list). -/
def npMeanQ (l : List ℚ) : ℚ := l.sum / (l.length : ℚ)

/-- `np.mean` of a real list (callers guard against the empty list). -/
noncomputable def npMeanR (l : List ℝ) : ℝ := l.sum / (l.length : ℝ)

/-- The per-variant label stability: `1.0` for an unchanged label, otherwise
the probability mass the variant distribution gives the original label, with
`0.0` when the label or the index cannot be found (the
`ValueError`/`IndexError` handler of the source). -/
def labelStability (labels : List (List Char)) (original v : ClassificationResult) : ℚ :=
  if v.top1_label = original.top1_label then 1
  else
    match labels.findIdx? (fun l => l = original.top1_label) with
    | none => 0
    | some i => v.probability_distribution.getD i 0

/-- The per-variant risk drift. -/
def riskDrift (original v : ClassificationResult) : ℚ :=
  |v.case_score - original.case_score| / max |original.case_score| 1

/-- The per-variant confidence stability. -/
def confidenceStability (original v : ClassificationResult) : ℚ :=
  1 - |v.confidence - original.confidence|

/-- `calculate_robustness_metrics`. -/
noncomputable def calculate_robustness_metrics (labels : List (List Char))
    (original : ClassificationResult) (variants : List ClassificationResult) :
    RobustnessMetrics :=
  match variants with
  | [] => ⟨0, 1, 1, 1, []⟩
  | v0 :: rest =>
    let variants := v0 :: rest
    let risk_drifts := variants.map (riskDrift original)
    let label_stabilities := variants.map (labelStability labels original)
    let confidence_stabilities := variants.map (confidenceStability original)
    let probability_similarities := variants.map
      (fun v => _cosine_similarity original.probability_distribution v.probability_distribution)
    let variant_results := variants.map (fun v =>
      VariantEntry.mk v.text
        (if containsStr (pyLower v.text) ("paraphrased".toList) then "paraphrased".toList
         else if containsStr (pyLower v.text) ("not".toList) then "negation_flipped".toList
         else if containsStr (pyLower v.text) ("certain".toList) ||
                 containsStr (pyLower v.text) ("approximately".toList) then "ambiguous".toList
         else "entity_swapped".toList)
        v.top1_label v.rating
        v.case_score v.confidence (riskDrift original v)
        (labelStability labels original v) (confidenceStability original v)
        (_cosine_similarity original.probability_distribution v.probability_distribution))
    let avg_risk_drift := if risk_drifts.isEmpty then 0 else npMeanQ risk_drifts
    let avg_label_stability := if label_stabilities.isEmpty then 0 else npMeanQ label_stabilities
    let avg_confidence_stability :=
      if confidence_stabilities.isEmpty then 0 else npMeanQ confidence_stabilities
    let avg_probability_similarity :=
      if probability_similarities.isEmpty then 0 else npMeanR probability_similarities
    ⟨min 1 avg_risk_drift, avg_label_stability, avg_confidence_stability,
     avg_probability_similarity, variant_results⟩

/-- The `original` part of a per-clause report: either the six summary fields
or, in a degraded report, the text together with an `error` entry. -/
inductive OriginalReport
  | ok (text top1_label rating : List Char) (case_score confidence : ℚ) (top3 : List Char)
  | failed (text : List Char) (error : List Char)

/-- Does the `original` dictionary of a report carry an `error` key? -/
def OriginalReport.hasError : OriginalReport → Bool
  | .ok _ _ _ _ _ _ => false
  | .failed _ _ => true

/-- The `robustness_metrics` summary of a successful per-clause report; a
degraded report carries an empty dictionary instead, modelled as `none`. -/
structure MetricsSummary where
  risk_drift_score : ℚ
  label_stability_score : ℚ
  confidence_stability : ℚ
  probability_similarity : ℝ

/-- `r["robustness_metrics"].get("risk_drift_score", 0)`. -/
def metricsDriftD : Option MetricsSummary → ℚ
  | none => 0
  | some m => m.risk_drift_score

/-- `r["robustness_metrics"].get("label_stability_score", 0)`. -/
def metricsLabelD : Option MetricsSummary → ℚ
  | none => 0
  | some m => m.label_stability_score

/-- A per-clause robustness report (`metadata` of an arbitrary type `M`). -/
structure ClauseReport (M : Type) where
  original : OriginalReport
  robustness_metrics : Option MetricsSummary
  variants : List VariantEntry
  metadata : M

/-- Classify each variant, silently dropping the ones whose classification
raises (the per-variant `try`/`except` of `test_clause_robustness`). -/
def classifyVariants (classify : List Char → Except (List Char) ClassificationResult) :
    List ClauseVariant → List ClassificationResult
  | [] => []
  | v :: rest =>
    match classify v.text with
    | .ok r => r :: classifyVariants classify rest
    | .error _ => classifyVariants classify rest

/-- `test_clause_robustness`: classify the original (a failure here
propagates), generate variants, classify them (failures dropped), compute
metrics, and assemble the report.  The random state is threaded explicitly in
place of the module-level `random` stream. -/
noncomputable def test_clause_robustness {M : Type}
    (labels : List (List Char))
    (classify : List Char → Except (List Char) ClassificationResult)
    (st : MTState) (clause : List Char) (metadata : M) :
    Except (List Char) (ClauseReport M × MTState) :=
  match classify clause with
  | .error e => .error e
  | .ok original_result =>
    let p := generate_variants st clause
    let variant_results := classifyVariants classify p.1
    let m := calculate_robustness_metrics labels original_result variant_results
    .ok (⟨.ok original_result.text original_result.top1_label original_result.rating
            original_result.case_score original_result.confidence original_result.top3,
          some ⟨m.risk_drift_score, m.label_stability_score, m.confidence_stability,
                m.probability_similarity⟩,
          m.variant_results, metadata⟩, p.2)

/-- One batch entry: `{"text": ..., "metadata": ...}`; a missing `text` key
reads as the empty string via `clause_data.get("text", "")`. -/
structure ClauseInput (M : Type) where
  text : List Char
  metadata : M

/-- The `summary` part of the suite result. -/
structure SuiteSummary where
  total_clauses : Nat
  successful_tests : Nat
  average_risk_drift : ℚ
  average_label_stability : ℚ
  overall_robustness_score : ℚ

/-- The suite result (the wall-clock `timestamp` field is outside the model). -/
structure SuiteResult (M : Type) where
  summary : SuiteSummary
  detailed_results : List (ClauseReport M)

/-- The clause loop of `run_robustness_suite`: empty-text entries are skipped
entirely; a tester failure is recorded as a degraded report
`{original: {text, error}, robustness_metrics: {}, variants: [], metadata}`
and the loop continues.  A failure happens before any random draw, so the
random state is unchanged by a failed clause. -/
noncomputable def suiteLoop {M : Type} (labels : List (List Char))
    (classify : List Char → Except (List Char) ClassificationResult) :
    List (ClauseInput M) → MTState → List (ClauseReport M)
  | [], _ => []
  | entry :: rest, st =>
    if entry.text.isEmpty then suiteLoop labels classify rest st
    else
      match test_clause_robustness labels classify st entry.text entry.metadata with
      | .ok rs => rs.1 :: suiteLoop labels classify rest rs.2
      | .error e =>
        ⟨.failed entry.text e, none, [], entry.metadata⟩ :: suiteLoop labels classify rest st

/-- `run_robustness_suite`: a fresh tester is constructed with the default
seed 42, every clause is processed with failure isolation, and the aggregate
statistics are computed.  Note the aggregation lists range over all recorded
reports (every report dictionary has a `robustness_metrics` key, the degraded
ones holding an empty dictionary whose `.get` yields the default `0`). -/
noncomputable def run_robustness_suite {M : Type} (labels : List (List Char))
    (classify : List Char → Except (List Char) ClassificationResult)
    (clauses : List (ClauseInput M)) : SuiteResult M :=
  let results := suiteLoop labels classify clauses (pySeed 42)
  let risk_drifts := results.map (fun r => metricsDriftD r.robustness_metrics)
  let label_stabilities := results.map (fun r => metricsLabelD r.robustness_metrics)
  let agg : ℚ × ℚ × ℚ :=
    if results.isEmpty then (0, 0, 0)
    else
      let avg_risk_drift := if risk_drifts.isEmpty then 0 else npMeanQ risk_drifts
      let avg_label_stability :=
        if label_stabilities.isEmpty then 0 else npMeanQ label_stabilities
      (avg_risk_drift, avg_label_stability, 1 - avg_risk_drift)
  ⟨⟨clauses.length,
    (results.filter (fun r => !r.original.hasError)).length,
    agg.1, agg.2.1, agg.2.2⟩,
   results⟩

/-!
## Specification-side definitions

These are written from the wording of the specification (not from the
source) and are compared with the embedded code in the theorems below.
-/

/-- Specification reading of the suite averages (§4.4): the mean of an
aggregate metric taken over the successful reports only, that is over the
reports whose original has no error key, and `0` when none succeeded. -/
def specAvgOverSuccessful {M : Type} (f : Option MetricsSummary → ℚ)
    (reports : List (ClauseReport M)) : ℚ :=
  let s := reports.filter (fun r => !r.original.hasError)
  if s.isEmpty then 0 else npMeanQ (s.map (fun r => f r.robustness_metrics))

/-- The post-hoc tag re-inference of §4.2 as amended: computed from the
resulting text alone by case-insensitive substring scans in a fixed priority
order, with the literal substring `paraphrased` checked first, then the
substring `not` (not the standalone word), then the vague tell-tale
substrings `certain` and `approximately`, and `entity_swapped` otherwise. -/
def specInferredTag (text : List Char) : List Char :=
  if containsStr (pyLower text) ("paraphrased".toList) then "paraphrased".toList
  else if containsStr (pyLower text) ("not".toList) then "negation_flipped".toList
  else if containsStr (pyLower text) ("certain".toList) ||
          containsStr (pyLower text) ("approximately".toList) then "ambiguous".toList
  else "entity_swapped".toList

/-!
## Concrete fixtures

A deterministic fake classifier in the sense of §9 (narrow injected
capability) together with small batches, used to evaluate the suite-level
theorems on explicit inputs.  The clause texts are chosen so that no
generator performs a random draw on them, keeping the concrete suite runs
independent of the seeded stream.
-/

/-- A one-label label set for the fake classifier. -/
def labelsA : List (List Char) := ["L".toList]

/-- First test clause. -/
def clauseA1 : List Char := "We will comply.".toList

/-- Second test clause; the fake classifier raises on exactly this text. -/
def clauseA2 : List Char := "We may decline.".toList

/-- Third test clause. -/
def clauseB3 : List Char := "We do cooperate.".toList

/-- Deterministic fake classifier: raises on `clauseA2`, classifies anything
else with case score `0` for `clauseA1` itself and `1` for every other text
(in particular for every generated variant text that differs from the
original). -/
def classifyA (t : List Char) : Except (List Char) ClassificationResult :=
  if t = clauseA2 then Except.error ("classification failed".toList)
  else Except.ok ⟨t, "L".toList, "low".toList, if t = clauseA1 then 0 else 1, 1,
                  "L".toList, [1, 0]⟩

/-- Two-clause batch: one succeeding clause, one failing clause. -/
def batchA : List (ClauseInput Unit) := [⟨clauseA1, ()⟩, ⟨clauseA2, ()⟩]

/-- Three-clause batch with the failing clause in the middle (the suite
isolation example of §8). -/
def batchB : List (ClauseInput Unit) := [⟨clauseA1, ()⟩, ⟨clauseA2, ()⟩, ⟨clauseB3, ()⟩]

/-- One-clause batch whose only clause fails to classify. -/
def batchC : List (ClauseInput Unit) := [⟨clauseA2, ()⟩]

/-- Anchor classification result for the tag-inference fixtures. -/
def originalC8 : ClassificationResult :=
  ⟨"We comply.".toList, "L".toList, "low".toList, 1, 1, "L".toList, [1, 0]⟩

/-- A variant classification result whose text contains the word `notice`
(and hence the substring `not`) but not the standalone word `not`. -/
def variantC8 : ClassificationResult :=
  ⟨"We provide notice to users.".toList, "L".toList, "low".toList, 1, 1,
   "L".toList, [1, 0]⟩

/-!
## Helper lemmas
-/

/-- A successful per-clause run always produces a report whose original part
has no error key. -/
theorem test_clause_ok_shape {M : Type} (labels : List (List Char))
    (classify : List Char → Except (List Char) ClassificationResult)
    (st : MTState) (clause : List Char) (metadata : M)
    (rs : ClauseReport M × MTState)
    (h : test_clause_robustness labels classify st clause metadata = .ok rs) :
    rs.1.original.hasError = false := by
  rw [test_clause_robustness] at h
  cases hc : classify clause with
  | error e => rw [hc] at h; exact absurd h (by simp)
  | ok res =>
    rw [hc] at h
    cases h
    rfl

/-- Every report of the suite loop whose original carries an error is a
degraded report: empty metrics dictionary and empty variants list. -/
theorem suiteLoop_failed_shape {M : Type} (labels : List (List Char))
    (classify : List Char → Except (List Char) ClassificationResult) :
    ∀ (clauses : List (ClauseInput M)) (st : MTState),
      ∀ r ∈ suiteLoop labels classify clauses st,
        r.original.hasError = true →
          r.robustness_metrics = none ∧ r.variants = [] := by
  intro clauses
  induction clauses with
  | nil => intro st r hr _; simp [suiteLoop] at hr
  | cons entry rest ih =>
    intro st r hr herr
    rw [suiteLoop] at hr
    by_cases he : entry.text.isEmpty
    · rw [if_pos he] at hr
      exact ih st r hr herr
    · rw [if_neg he] at hr
      cases htc : test_clause_robustness labels classify st entry.text entry.metadata with
      | ok rs =>
        rw [htc] at hr
        rcases List.mem_cons.mp hr with h1 | h1
        · subst h1
          exact absurd herr (by simp [test_clause_ok_shape labels classify st entry.text
            entry.metadata rs htc])
        · exact ih rs.2 r h1 herr
      | error e =>
        rw [htc] at hr
        rcases List.mem_cons.mp hr with h1 | h1
        · subst h1; exact ⟨rfl, rfl⟩
        · exact ih st r h1 herr

/-- The mean of a metric read off a list of reports that all carry an error
is zero: the degraded reports contribute the dictionary default `0`. -/
theorem npMeanQ_all_failed {M : Type} (f : Option MetricsSummary → ℚ)
    (hf : f none = 0) (reports : List (ClauseReport M))
    (hall : ∀ r ∈ reports, r.robustness_metrics = none) :
    npMeanQ (reports.map (fun r => f r.robustness_metrics)) = 0 := by
  have hsum : (reports.map (fun r => f r.robustness_metrics)).sum = 0 := by
    apply List.sum_eq_zero
    intro x hx
    rcases List.mem_map.mp hx with ⟨r, hr, hxe⟩
    rw [← hxe, hall r hr, hf]
  rw [npMeanQ, hsum, zero_div]

/-- A company-table loop over a text in which no key occurs returns the text
and the random state unchanged (no draw is consumed). -/
theorem companyLoop_no_match : ∀ (table : List (List Char × List (List Char)))
    (text : List Char) (st : MTState),
    (∀ p ∈ table, containsStr text p.1 = false) →
    companyLoop table text st = (text, st) := by
  intro table
  induction table with
  | nil => intro text st _; rfl
  | cons p rest ih =>
    intro text st h
    obtain ⟨key, repls⟩ := p
    rw [companyLoop, h ⟨key, repls⟩ (List.mem_cons_self _ rest)]
    simp only [Bool.false_eq_true, if_false]
    exact ih text st (fun q hq => h q (List.mem_cons_of_mem _ hq))

/-- The vague-word loop over a text in which no trigger occurs returns the
text and the random state unchanged. -/
theorem ambLoop_no_match : ∀ (table : List (List Char × List (List Char)))
    (text : List Char) (st : MTState),
    (∀ p ∈ table, containsStr (pyLower text) p.1 = false) →
    ambLoop table text st = (text, st) := by
  intro table
  induction table with
  | nil => intro text st _; rfl
  | cons p rest ih =>
    intro text st h
    obtain ⟨key, repls⟩ := p
    rw [ambLoop, h ⟨key, repls⟩ (List.mem_cons_self _ rest)]
    simp only [Bool.false_eq_true, if_false]
    exact ih text st (fun q hq => h q (List.mem_cons_of_mem _ hq))

/-- On a clause that mentions no company name, the entity-swapped text is the
pure substitution chain (and in particular is the same for every random
state). -/
theorem entity_text_no_company (st : MTState) (text : List Char)
    (h : ∀ p ∈ company_replacements, containsStr text p.1 = false) :
    (generate_entity_swapped_variant st text).1.text =
      durationSwapLoop duration_swaps
        (subWord false ("2024".toList) ("2025".toList)
          (subWord false ("2023".toList) ("2024".toList)
            (subWord false ("Inc".toList) ("LLC".toList)
              (subWord false ("Corporation".toList) ("Entity".toList)
                (subWord false ("Company".toList) ("Organization".toList) text))))) := by
  rw [generate_entity_swapped_variant, companyLoop_no_match company_replacements text st h]

/-- On a clause that contains no vague-word trigger, the ambiguous text is
the pure duration and percentage rewriting chain (the same for every random
state). -/
theorem amb_text_no_trigger (st : MTState) (text : List Char)
    (h : ∀ p ∈ ambiguity_words, containsStr (pyLower text) p.1 = false) :
    (generate_ambiguous_variant st text).1.text =
      pySub (pctMatcher ("a significant percentage".toList))
        (pySub (durMatcher ("month".toList) ("an extended period".toList))
          (pySub (durMatcher ("week".toList) ("some time".toList))
            (pySub (durMatcher ("day".toList) ("a reasonable period".toList)) text))) := by
  rw [generate_ambiguous_variant, ambLoop_no_match ambiguity_words text st h]

/-- The rejection loop of `_randbelow` always returns a value below `n` for
positive `n` (also when the fuel runs out). -/
theorem randbelowAux_lt (n k : Nat) (hn : 0 < n) :
    ∀ (fuel : Nat) (st : MTState), (randbelowAux n k fuel st).1 < n := by
  intro fuel
  induction fuel with
  | zero => intro st; exact hn
  | succ f ih =>
    intro st
    rcases hg : getrandbits k st with ⟨r, st1⟩
    rw [randbelowAux, hg]
    show (if r < n then (r, st1) else randbelowAux n k f st1).1 < n
    by_cases hr : r < n
    · rw [if_pos hr]; exact hr
    · rw [if_neg hr]; exact ih st1

/-- `_randbelow(n)` returns an index below `n` for positive `n`. -/
theorem randbelow_lt (n : Nat) (st : MTState) (hn : 0 < n) :
    (randbelow n st).1 < n :=
  randbelowAux_lt n (bitLength n) hn 64 st

/-- A paraphrase-table entry whose key does not occur is skipped without a
draw. -/
theorem paraLoop_skip (key : List Char) (syns : List (List Char))
    (rest : List (List Char × List (List Char))) (text : List Char) (st : MTState)
    (h : containsStr text key = false) :
    paraLoop ((key, syns) :: rest) text st = paraLoop rest text st := by
  rw [paraLoop, h]
  simp

/-- A paraphrase-table entry whose key occurs as a substring rewrites all its
occurrences with the drawn synonym and advances the stream. -/
theorem paraLoop_hit (key : List Char) (syns : List (List Char))
    (rest : List (List Char × List (List Char))) (text : List Char) (st : MTState)
    (h : containsStr text key = true) :
    paraLoop ((key, syns) :: rest) text st =
      paraLoop rest (pyReplace text key (pychoice syns st).1) (pychoice syns st).2 := by
  rw [paraLoop, h]
  simp

/-- The text component of a paraphrase-table loop with no matching key is the
input text. -/
theorem paraLoop_fst_no_match : ∀ (table : List (List Char × List (List Char)))
    (text : List Char) (st : MTState),
    (∀ p ∈ table, containsStr text p.1 = false) →
    (paraLoop table text st).1 = text := by
  intro table
  induction table with
  | nil => intro text st _; rfl
  | cons p rest ih =>
    intro text st h
    obtain ⟨key, syns⟩ := p
    rw [paraLoop_skip key syns rest text st (h ⟨key, syns⟩ (List.mem_cons_self _ rest))]
    exact ih text st (fun q hq => h q (List.mem_cons_of_mem _ hq))

/-- On `User preferences.` the paraphrased text is one of the four mangled
rewrites: the key `use` matches inside `user`, so `text.replace` splices a
synonym into the word. -/
theorem paraphrase_user_prefs_cases (st : MTState) :
    (generate_paraphrased_variant st ("User preferences.".toList)).1.text =
        "Utilizer preferences.".toList ∨
    (generate_paraphrased_variant st ("User preferences.".toList)).1.text =
        "Employr preferences.".toList ∨
    (generate_paraphrased_variant st ("User preferences.".toList)).1.text =
        "Applyr preferences.".toList ∨
    (generate_paraphrased_variant st ("User preferences.".toList)).1.text =
        "Leverager preferences.".toList := by
  have hlt : (randbelow (List.length ["utilize".toList, "employ".toList, "apply".toList,
      "leverage".toList]) st).1 < 4 :=
    randbelow_lt _ st (by decide)
  simp only [generate_paraphrased_variant, paraphrase_templates]
  rw [paraLoop_skip _ _ _ _ _ (by decide), paraLoop_hit _ _ _ _ _ (by decide)]
  simp only [pychoice]
  set r := (randbelow (List.length ["utilize".toList, "employ".toList, "apply".toList,
      "leverage".toList]) st).1 with hrdef
  interval_cases r
  · exact Or.inl (by rw [paraLoop_fst_no_match _ _ _ (by decide)]; decide)
  · exact Or.inr (Or.inl (by rw [paraLoop_fst_no_match _ _ _ (by decide)]; decide))
  · exact Or.inr (Or.inr (Or.inl (by rw [paraLoop_fst_no_match _ _ _ (by decide)]; decide)))
  · exact Or.inr (Or.inr (Or.inr (by rw [paraLoop_fst_no_match _ _ _ (by decide)]; decide)))

/-- Case-sensitive character comparison is reflexive. -/
theorem charEqCI_refl (c : Char) : charEqCI false c c = true := by
  simp [charEqCI]

/-- A list is a prefix match of itself extended by anything. -/
theorem prefixMatch_self_append (n t : List Char) :
    prefixMatch false n (n ++ t) = true := by
  induction n with
  | nil => rfl
  | cons c cs ih => simp [prefixMatch, charEqCI_refl, ih]

/-- A prefix match survives extending the text on the right. -/
theorem prefixMatch_extend (n : List Char) :
    ∀ (s b : List Char), prefixMatch false n s = true →
      prefixMatch false n (s ++ b) = true := by
  induction n with
  | nil => intro s b _; rfl
  | cons c cs ih =>
    intro s b h
    cases s with
    | nil => exact absurd h (by simp [prefixMatch])
    | cons d ds =>
      simp only [prefixMatch, Bool.and_eq_true] at h
      simp only [List.cons_append, prefixMatch, Bool.and_eq_true]
      exact ⟨h.1, ih ds b h.2⟩

/-- The empty needle is contained in every string. -/
theorem containsStr_nil_needle (b : List Char) : containsStr b [] = true := by
  cases b with
  | nil => rfl
  | cons c t => simp [containsStr, prefixMatch]

/-- A matching prefix witnesses substring containment. -/
theorem containsStr_of_prefix (n h : List Char) (hp : prefixMatch false n h = true) :
    containsStr h n = true := by
  cases h with
  | nil =>
    cases n with
    | nil => rfl
    | cons c cs => exact absurd hp (by simp [prefixMatch])
  | cons c t => simp [containsStr, hp]

/-- Containment in the tail gives containment in the whole. -/
theorem containsStr_cons_of (c : Char) (t n : List Char)
    (h : containsStr t n = true) : containsStr (c :: t) n = true := by
  simp [containsStr, h]

/-- Containment on the left part gives containment in the concatenation. -/
theorem containsStr_append_of_left (a : List Char) :
    ∀ (b n : List Char), containsStr a n = true →
      containsStr (a ++ b) n = true := by
  induction a with
  | nil =>
    intro b n h
    have hn : n = [] := by
      cases n with
      | nil => rfl
      | cons c cs => simp [containsStr] at h
    rw [hn]
    exact containsStr_nil_needle ([] ++ b)
  | cons c t ih =>
    intro b n h
    simp only [containsStr, Bool.or_eq_true] at h
    rcases h with h | h
    · exact containsStr_of_prefix n _ (prefixMatch_extend n (c :: t) b h)
    · exact containsStr_cons_of c (t ++ b) n (ih b n h)

/-- Every string contains itself. -/
theorem containsStr_refl (n : List Char) : containsStr n n = true := by
  cases n with
  | nil => rfl
  | cons c t =>
    exact containsStr_of_prefix _ _ (by simpa using prefixMatch_self_append (c :: t) [])

/-- Searching only consults whether the matcher fires, not its replacement. -/
theorem searchScan_congr (m1 m2 : Bool → List Char → Option (Nat × List Char))
    (hag : ∀ pw s, (m1 pw s).isSome = (m2 pw s).isSome) :
    ∀ (fuel : Nat) (pw : Bool) (l : List Char),
      searchScan m1 fuel pw l = searchScan m2 fuel pw l := by
  intro fuel
  induction fuel with
  | zero => intro pw l; rfl
  | succ f ih =>
    intro pw l
    cases l with
    | nil => rfl
    | cons c rest =>
      rw [searchScan, searchScan, hag pw (c :: rest), ih (isWordChar c) rest]

/-- When the search fires somewhere and every replacement the matcher can
emit contains the needle, the substituted text contains the needle. -/
theorem subScan_contains (m : Bool → List Char → Option (Nat × List Char))
    (needle : List Char)
    (hm : ∀ pw s p, m pw s = some p → containsStr p.2 needle = true) :
    ∀ (fuel : Nat) (pw : Bool) (l : List Char),
      searchScan m fuel pw l = true →
      containsStr (subScan m fuel pw l) needle = true := by
  intro fuel
  induction fuel with
  | zero => intro pw l h; rw [searchScan] at h; exact absurd h (Bool.false_ne_true)
  | succ f ih =>
    intro pw l hs
    cases l with
    | nil => rw [searchScan] at hs; exact absurd hs (Bool.false_ne_true)
    | cons c rest =>
      rw [searchScan] at hs
      rw [subScan]
      cases hm0 : m pw (c :: rest) with
      | some p =>
        obtain ⟨k, rep⟩ := p
        exact containsStr_append_of_left rep _ needle (hm pw (c :: rest) ⟨k, rep⟩ hm0)
      | none =>
        rw [hm0] at hs
        simp only [Option.isSome_none, Bool.false_or] at hs
        exact containsStr_cons_of c _ needle (ih (isWordChar c) rest hs)

/-- Prefix matching is preserved by lowercasing both sides. -/
theorem prefixMatch_map_lower (n : List Char) :
    ∀ (s : List Char), prefixMatch false n s = true →
      prefixMatch false (pyLower n) (pyLower s) = true := by
  induction n with
  | nil => intro s _; rfl
  | cons c cs ih =>
    intro s h
    cases s with
    | nil => exact absurd h (by simp [prefixMatch])
    | cons d ds =>
      simp only [prefixMatch, Bool.and_eq_true, charEqCI, if_false, decide_eq_true_eq,
        Bool.false_eq_true] at h
      simp only [pyLower, List.map_cons, prefixMatch, Bool.and_eq_true, h.1]
      exact ⟨charEqCI_refl (lowerChar d), ih ds h.2⟩

/-- Substring containment is preserved by lowercasing both sides. -/
theorem containsStr_map_lower : ∀ (s n : List Char), containsStr s n = true →
    containsStr (pyLower s) (pyLower n) = true := by
  intro s
  induction s with
  | nil =>
    intro n h
    have hn : n = [] := by
      cases n with
      | nil => rfl
      | cons c cs => simp [containsStr] at h
    rw [hn]; rfl
  | cons c t ih =>
    intro n h
    simp only [containsStr, Bool.or_eq_true] at h
    rcases h with h | h
    · exact containsStr_of_prefix _ _ (by
        simpa [pyLower] using prefixMatch_map_lower n (c :: t) h)
    · simpa [pyLower] using containsStr_cons_of (lowerChar c) (pyLower t) (pyLower n) (ih n h)

/-- Whether the word matcher fires does not depend on its replacement. -/
theorem wordMatcher_isSome_congr (ci : Bool) (w r1 r2 : List Char) (pw : Bool)
    (s : List Char) :
    (wordMatcher ci w r1 pw s).isSome = (wordMatcher ci w r2 pw s).isSome := by
  rw [wordMatcher, wordMatcher]
  split
  · rfl
  · rfl

/-- Every replacement the word matcher emits is its fixed replacement. -/
theorem wordMatcher_repl (ci : Bool) (w repl : List Char) (pw : Bool)
    (s : List Char) (p : Nat × List Char)
    (h : wordMatcher ci w repl pw s = some p) : p.2 = repl := by
  rw [wordMatcher] at h
  split at h
  · cases h; rfl
  · cases h

/-- When a word-bounded pattern is found, the substituted text contains the
replacement as a substring. -/
theorem subWord_contains_repl (ci : Bool) (w repl s : List Char)
    (h : searchWord ci w s = true) :
    containsStr (subWord ci w repl s) repl = true := by
  have h2 : searchScan (wordMatcher ci w repl) (s.length + 1) false s = true := by
    rw [← searchScan_congr (wordMatcher ci w []) (wordMatcher ci w repl)
      (fun pw s2 => wordMatcher_isSome_congr ci w [] repl pw s2)]
    exact h
  exact subScan_contains (wordMatcher ci w repl) repl
    (fun pw s2 p hp => by
      rw [wordMatcher_repl ci w repl pw s2 p hp]; exact containsStr_refl repl)
    (s.length + 1) false s h2

/-- A negation rule whose pattern is found fires and ends the loop. -/
theorem negLoop_hit (pos neg : List Char) (rest : List (List Char × List Char))
    (text : List Char) (h : searchWord true pos text = true) :
    negLoop ((pos, neg) :: rest) text = subWord true pos neg text := by
  rw [negLoop, h]
  simp

/-- When `\bwill\b` matches a clause (and no `no longer` survives in the
substituted text), the negation variant is exactly the clause with every
word-bounded `will` replaced by `will not`: the first matching rule is the
only one applied, and the special cases are skipped because `will not` is now
present. -/
theorem negation_first_rule (clause : List Char)
    (h1 : searchWord true ("will".toList) clause = true)
    (h2 : pySearch noLongerMatcher
      (subWord true ("will".toList) ("will not".toList) clause) = false) :
    (generate_negation_variant clause).text =
      subWord true ("will".toList) ("will not".toList) clause := by
  have ht1 : negLoop negation_words clause =
      subWord true ("will".toList) ("will not".toList) clause :=
    negLoop_hit ("will".toList) ("will not".toList) _ clause h1
  have hlow : containsStr
      (pyLower (subWord true ("will".toList) ("will not".toList) clause))
      ("will not".toList) = true := by
    have hc := subWord_contains_repl true ("will".toList) ("will not".toList) clause h1
    have hmap := containsStr_map_lower _ _ hc
    have hfix : pyLower ("will not".toList) = "will not".toList := by decide
    rwa [hfix] at hmap
  simp only [generate_negation_variant, ht1, hlow, h2, Bool.not_true, Bool.and_false,
    Bool.false_eq_true, if_false]

/-!
## The claims
-/

/-- C1, counterexample.  The claim states that `average_risk_drift` and
`average_label_stability` are means over the successful reports only.  On the
two-clause batch `batchA` (one clause succeeds with aggregate risk drift
`1/2` and label stability `1`, the other fails to classify) the suite
averages are `1/4` and `1/2`: the failed report is included in the mean with
value `0`, so the summary disagrees with the successful-only mean. -/
theorem suite_average_counts_failed_reports :
    (run_robustness_suite labelsA classifyA batchA).summary.average_risk_drift = 1 / 4 ∧
    specAvgOverSuccessful metricsDriftD
      (run_robustness_suite labelsA classifyA batchA).detailed_results = 1 / 2 ∧
    (run_robustness_suite labelsA classifyA batchA).summary.average_risk_drift ≠
      specAvgOverSuccessful metricsDriftD
        (run_robustness_suite labelsA classifyA batchA).detailed_results ∧
    (run_robustness_suite labelsA classifyA batchA).summary.average_label_stability = 1 / 2 ∧
    specAvgOverSuccessful metricsLabelD
      (run_robustness_suite labelsA classifyA batchA).detailed_results = 1 ∧
    (run_robustness_suite labelsA classifyA batchA).summary.average_label_stability ≠
      specAvgOverSuccessful metricsLabelD
        (run_robustness_suite labelsA classifyA batchA).detailed_results := by
  exact ⟨by decide, by decide, by decide, by decide, by decide, by decide⟩

/-- C1, as amended.  `average_risk_drift` and `average_label_stability` are
the means of the corresponding aggregate metric over all recorded reports
(skipped empty-text entries excepted), with degraded reports contributing the
missing-key default `0`; both averages are `0` when the report list is empty,
and in particular both are `0` whenever no clause succeeded. -/
theorem suite_average_over_all_reports {M : Type} (labels : List (List Char))
    (classify : List Char → Except (List Char) ClassificationResult)
    (clauses : List (ClauseInput M)) :
    (run_robustness_suite labels classify clauses).summary.average_risk_drift =
      (if (run_robustness_suite labels classify clauses).detailed_results.isEmpty then 0
       else npMeanQ ((run_robustness_suite labels classify clauses).detailed_results.map
         (fun r => metricsDriftD r.robustness_metrics))) ∧
    (run_robustness_suite labels classify clauses).summary.average_label_stability =
      (if (run_robustness_suite labels classify clauses).detailed_results.isEmpty then 0
       else npMeanQ ((run_robustness_suite labels classify clauses).detailed_results.map
         (fun r => metricsLabelD r.robustness_metrics))) ∧
    (((run_robustness_suite labels classify clauses).detailed_results.filter
        (fun r => !r.original.hasError)).isEmpty = true →
      (run_robustness_suite labels classify clauses).summary.average_risk_drift = 0 ∧
      (run_robustness_suite labels classify clauses).summary.average_label_stability = 0) := by
  have hshape := suiteLoop_failed_shape labels classify clauses (pySeed 42)
  constructor
  · show (run_robustness_suite labels classify clauses).summary.average_risk_drift = _
    rw [run_robustness_suite]
    cases suiteLoop labels classify clauses (pySeed 42) with
    | nil => simp
    | cons r rest => simp [npMeanQ]
  constructor
  · rw [run_robustness_suite]
    cases suiteLoop labels classify clauses (pySeed 42) with
    | nil => simp
    | cons r rest => simp [npMeanQ]
  · intro hempty
    have hall : ∀ r ∈ suiteLoop labels classify clauses (pySeed 42),
        r.robustness_metrics = none := by
      intro r hr
      have herr : r.original.hasError = true := by
        by_contra hfalse
        have : r ∈ (run_robustness_suite labels classify clauses).detailed_results.filter
            (fun r => !r.original.hasError) := by
          apply List.mem_filter.mpr
          exact ⟨hr, by simp [Bool.not_eq_true] at hfalse ⊢; simp [hfalse]⟩
        rw [List.isEmpty_iff] at hempty
        rw [hempty] at this
        exact absurd this (List.not_mem_nil r)
      exact (hshape r hr herr).1
    constructor
    · rw [run_robustness_suite]
      cases hres : suiteLoop labels classify clauses (pySeed 42) with
      | nil => simp
      | cons r rest =>
        simp only [List.isEmpty_cons, List.map_cons, Bool.false_eq_true, if_false,
          List.isEmpty_eq_true, List.map_eq_nil_iff]
        rw [hres] at hall
        simpa using npMeanQ_all_failed metricsDriftD rfl (r :: rest) hall
    · rw [run_robustness_suite]
      cases hres : suiteLoop labels classify clauses (pySeed 42) with
      | nil => simp
      | cons r rest =>
        simp only [List.isEmpty_cons, List.map_cons, Bool.false_eq_true, if_false,
          List.isEmpty_eq_true, List.map_eq_nil_iff]
        rw [hres] at hall
        simpa using npMeanQ_all_failed metricsLabelD rfl (r :: rest) hall

/-- C1, witness for the amended theorem: on a one-clause batch whose only
clause fails to classify, no clause succeeded and both suite averages are
zero. -/
theorem suite_average_over_all_reports_witness :
    (run_robustness_suite labelsA classifyA batchC).summary.average_risk_drift = 0 ∧
    (run_robustness_suite labelsA classifyA batchC).summary.average_label_stability = 0 :=
  (suite_average_over_all_reports labelsA classifyA batchC).2.2 (by decide)

/-- C4.  For every batch, the suite returns a complete structure:
`total_clauses` is the input batch length (including skipped and failed
entries), `successful_tests` counts exactly the reports whose original part
has no error key, and every report whose original classification raised is
degraded, with an empty metrics dictionary and an empty variants list, while
the remaining clauses produce their reports independently.  The model
functions are total, reflecting that the suite never raises on a well-formed
batch. -/
theorem robustness_suite_isolation {M : Type} (labels : List (List Char))
    (classify : List Char → Except (List Char) ClassificationResult)
    (clauses : List (ClauseInput M)) :
    (run_robustness_suite labels classify clauses).summary.total_clauses = clauses.length ∧
    (run_robustness_suite labels classify clauses).summary.successful_tests =
      ((run_robustness_suite labels classify clauses).detailed_results.filter
        (fun r => !r.original.hasError)).length ∧
    ∀ i (h : i < (run_robustness_suite labels classify clauses).detailed_results.length),
      ((run_robustness_suite labels classify clauses).detailed_results.get
          ⟨i, h⟩).original.hasError = true →
        ((run_robustness_suite labels classify clauses).detailed_results.get
          ⟨i, h⟩).robustness_metrics = none ∧
        ((run_robustness_suite labels classify clauses).detailed_results.get
          ⟨i, h⟩).variants = [] := by
  refine ⟨rfl, rfl, ?_⟩
  intro i h herr
  exact suiteLoop_failed_shape labels classify clauses (pySeed 42) _
    (List.get_mem _ i h) herr

/-- C4, witness: the three-clause batch of §8 with the classifier raising on
the middle clause: `total_clauses = 3`, `successful_tests = 2`, the error
flags of the reports are `[false, true, false]`, and report `1` is degraded
while its siblings are normal. -/
theorem robustness_suite_isolation_witness :
    (run_robustness_suite labelsA classifyA batchB).summary.total_clauses = 3 ∧
    (run_robustness_suite labelsA classifyA batchB).summary.successful_tests = 2 ∧
    ((run_robustness_suite labelsA classifyA batchB).detailed_results.map
      (fun r => r.original.hasError)) = [false, true, false] ∧
    ∃ h : 1 < (run_robustness_suite labelsA classifyA batchB).detailed_results.length,
      ((run_robustness_suite labelsA classifyA batchB).detailed_results.get
        ⟨1, h⟩).robustness_metrics = none ∧
      ((run_robustness_suite labelsA classifyA batchB).detailed_results.get
        ⟨1, h⟩).variants = [] := by
  refine ⟨(robustness_suite_isolation labelsA classifyA batchB).1, by decide, by decide,
    ⟨by decide, ?_⟩⟩
  exact (robustness_suite_isolation labelsA classifyA batchB).2.2 1 (by decide) (by decide)

/-- C5.  For every original classification result (and any label set),
`calculate_robustness_metrics` applied to the empty variant list returns
exactly the identity defaults: risk drift `0.0`, label stability `1.0`,
confidence stability `1.0`, probability similarity `1.0`, and an empty
variant-results list. -/
theorem calculate_robustness_metrics_zero_variant_default
    (labels : List (List Char)) (original : ClassificationResult) :
    calculate_robustness_metrics labels original [] =
      ⟨0, 1, 1, 1, []⟩ := rfl

/-- C8, counterexample.  The claim states the re-inferred tag is
`negation_flipped` exactly when the word `not` appears in the text.  For a
variant whose text is `We provide notice to users.` the inferred tag is
`negation_flipped` although the standalone word `not` does not occur: the
scan is for the substring `not`, which occurs inside `notice`. -/
theorem variant_type_substring_not_word :
    ((calculate_robustness_metrics labelsA originalC8 [variantC8]).variant_results.map
        (fun e => e.variant_type)) = ["negation_flipped".toList] ∧
    searchWord true ("not".toList) variantC8.text = false :=
  ⟨by decide, by decide⟩

/-- C8, as amended.  Each per-variant result re-infers `variant_type` from
the variant text alone (the generator tag is not even an input of
`calculate_robustness_metrics`), by case-insensitive substring scans in
priority order: the literal substring `paraphrased` first, then the
substring `not` (not the standalone word), then the vague tell-tales
`certain`/`approximately`, and `entity_swapped` otherwise. -/
theorem variant_type_reinferred_from_text (labels : List (List Char))
    (original : ClassificationResult) (variants : List ClassificationResult) :
    (calculate_robustness_metrics labels original variants).variant_results.map
        (fun e => e.variant_type) =
      variants.map (fun v => specInferredTag v.text) := by
  cases variants with
  | nil => rfl
  | cons v rest =>
    simp only [calculate_robustness_metrics, List.map_map]
    rfl

/-- C2, counterexample.  With the default construction seed 42, two
successive calls of `generate_variants` on the clause
`We collect and use your data.` return different lists: the first call draws
the synonyms `gather`/`utilize`, the second call continues the same global
stream and draws `acquire`/`employ`, so the paraphrased texts differ. -/
theorem generate_variants_repeat_call_differs :
    (generate_variants (pySeed 42) ("We collect and use your data.".toList)).1 ≠
      (generate_variants
        (generate_variants (pySeed 42) ("We collect and use your data.".toList)).2
        ("We collect and use your data.".toList)).1 := by decide

/-- C2, as amended.  The output is a deterministic function of the random
state and the clause, so re-seeding reproduces it; but a second successive
call continues the advanced stream and its synonym draws may differ.  What
is stable across successive calls is the shape: both lists carry the tags
`paraphrased, negation_flipped, ambiguous, entity_swapped` in order, and the
negation variant (which uses no randomness) is identical. -/
theorem generate_variants_tags_stable_across_calls (st : MTState) (clause : List Char) :
    ((generate_variants st clause).1.map (fun v => v.variant_type) =
      (generate_variants (generate_variants st clause).2 clause).1.map
        (fun v => v.variant_type)) ∧
    ((generate_variants st clause).1.map (fun v => v.variant_type) =
      ["paraphrased".toList, "negation_flipped".toList, "ambiguous".toList,
       "entity_swapped".toList]) ∧
    (generate_variants st clause).1.get? 1 = some (generate_negation_variant clause) ∧
    (generate_variants (generate_variants st clause).2 clause).1.get? 1 =
      some (generate_negation_variant clause) :=
  ⟨rfl, rfl, rfl, rfl⟩

/-- C6, counterexample.  The claim states a standalone `2023` is replaced by
`2024`.  On `Effective in 2023.` the entity-swapped variant is
`Effective in 2025.`: the first substitution rewrites `2023` to `2024` and
the second, applied afterwards to the whole text, rewrites that `2024` again
to `2025`; no `2024` remains. -/
theorem entity_swap_year_2023_becomes_2025 :
    (generate_entity_swapped_variant (pySeed 42) ("Effective in 2023.".toList)).1.text =
      "Effective in 2025.".toList ∧
    containsStr ((generate_entity_swapped_variant (pySeed 42)
      ("Effective in 2023.".toList)).1.text) ("2024".toList) = false :=
  ⟨by decide, by decide⟩

/-- C6, as amended.  The two year substitutions are applied in sequence
(`2023` to `2024` first, then `2024` to `2025` on the result), so a
standalone input `2023` ends as `2025`, and a standalone input `2024`
likewise becomes `2025`, for every state of the seeded stream. -/
theorem entity_swap_sequential_year_subs (st : MTState) :
    (generate_entity_swapped_variant st ("Effective in 2023.".toList)).1.text =
      "Effective in 2025.".toList ∧
    (generate_entity_swapped_variant st ("Effective in 2024.".toList)).1.text =
      "Effective in 2025.".toList := by
  constructor
  · rw [entity_text_no_company st ("Effective in 2023.".toList) (by decide)]
    decide
  · rw [entity_text_no_company st ("Effective in 2024.".toList) (by decide)]
    decide

/-- C7, counterexample.  The claim states each percentage `N%` becomes
`a significant percentage`.  On `We share 50% of data.` the text is returned
unchanged: the pattern `\b\d+%\b` requires a word character directly after
the percent sign, so `50%` followed by a space never matches. -/
theorem ambiguous_variant_percent_not_replaced :
    (generate_ambiguous_variant (pySeed 42) ("We share 50% of data.".toList)).1.text =
      "We share 50% of data.".toList := by decide

/-- C7, as amended.  Numeric durations are rewritten as stated, so
`We retain data for 30 days.` becomes `We retain data for a reasonable
period.` with the rest of the sentence intact; but a percentage is rewritten
only when the percent sign is directly followed by a word character (the
trailing `\b` of `\b\d+%\b` fails before a space, punctuation or the end of
the string), so `50% of` is left alone while `50%of` is rewritten. -/
theorem ambiguous_variant_duration_and_percent_behavior (st : MTState) :
    (generate_ambiguous_variant st ("We retain data for 30 days.".toList)).1.text =
      "We retain data for a reasonable period.".toList ∧
    (generate_ambiguous_variant st ("We share 50% of data.".toList)).1.text =
      "We share 50% of data.".toList ∧
    (generate_ambiguous_variant st ("We share 50%of data.".toList)).1.text =
      "We share a significant percentageof data.".toList := by
  refine ⟨?_, ?_, ?_⟩
  · rw [amb_text_no_trigger st ("We retain data for 30 days.".toList) (by decide)]
    decide
  · rw [amb_text_no_trigger st ("We share 50% of data.".toList) (by decide)]
    decide
  · rw [amb_text_no_trigger st ("We share 50%of data.".toList) (by decide)]
    decide

/-- C10.  On the clause `User preferences.`, which contains no standalone
privacy verb, the paraphrased variant still alters the wording beyond
lowercasing and recapitalization: the substring-based key matching replaces
the `use` embedded in `user` with a synonym, producing one of four mangled
words, for every state of the seeded stream. -/
theorem paraphrase_substring_key_mangles_words (st : MTState) :
    (generate_paraphrased_variant st ("User preferences.".toList)).1.text ≠
      "User preferences.".toList ∧
    ((generate_paraphrased_variant st ("User preferences.".toList)).1.text =
        "Utilizer preferences.".toList ∨
      (generate_paraphrased_variant st ("User preferences.".toList)).1.text =
        "Employr preferences.".toList ∨
      (generate_paraphrased_variant st ("User preferences.".toList)).1.text =
        "Applyr preferences.".toList ∨
      (generate_paraphrased_variant st ("User preferences.".toList)).1.text =
        "Leverager preferences.".toList) := by
  have h4 := paraphrase_user_prefs_cases st
  refine ⟨?_, h4⟩
  rcases h4 with h | h | h | h <;> rw [h] <;> decide

/-- C3, counterexample.  The claim states at most one negation is injected
per call.  On `We will comply and we will cooperate.` the first matching
rule substitutes every word-bounded occurrence of `will` (as `re.sub` does),
so `will not` is injected twice. -/
theorem negation_variant_double_injection :
    (generate_negation_variant ("We will comply and we will cooperate.".toList)).text =
      "We will not comply and we will not cooperate.".toList ∧
    countOccur ((generate_negation_variant
      ("We will comply and we will cooperate.".toList)).text) ("will not".toList) = 2 :=
  ⟨by decide, by decide⟩

/-- C3, as amended.  The negation generator applies only the first matching
verb-negation rule, but that rule substitutes every word-bounded occurrence
of its word: when `\bwill\b` matches (and no `no longer` remains to trigger
the stripping branch), the result is exactly the clause with each `will`
replaced by `will not` and no other rule applied.  On
`We will collect your data.`, which has a single `will`, the result contains
`will not` exactly once and `collect` is not additionally negated. -/
theorem negation_variant_first_rule_only :
    (∀ clause : List Char,
      searchWord true ("will".toList) clause = true →
      pySearch noLongerMatcher
        (subWord true ("will".toList) ("will not".toList) clause) = false →
      (generate_negation_variant clause).text =
        subWord true ("will".toList) ("will not".toList) clause) ∧
    (generate_negation_variant ("We will collect your data.".toList)).text =
      "We will not collect your data.".toList ∧
    countOccur ((generate_negation_variant ("We will collect your data.".toList)).text)
      ("will not".toList) = 1 ∧
    containsStr ((generate_negation_variant ("We will collect your data.".toList)).text)
      ("do not collect".toList) = false :=
  ⟨negation_first_rule, by decide, by decide, by decide⟩

/-- C3, witness for the general part of the amended theorem, applied to the
clause `We will deliver private data.`. -/
theorem negation_variant_first_rule_only_witness :
    (generate_negation_variant ("We will deliver private data.".toList)).text =
      subWord true ("will".toList) ("will not".toList)
        ("We will deliver private data.".toList) :=
  negation_variant_first_rule_only.1 ("We will deliver private data.".toList)
    (by decide) (by decide)

/-- A sum of squares is non-negative. -/
theorem sumsqQ_nonneg (v : List ℚ) : 0 ≤ sumsqQ v := by
  induction v with
  | nil => simp [sumsqQ]
  | cons a t ih =>
    have h1 : (0 : ℚ) ≤ a * a := mul_self_nonneg a
    have h2 : sumsqQ (a :: t) = a * a + sumsqQ t := by simp [sumsqQ]
    rw [h2]
    linarith

/-- Cauchy-Schwarz for the zip dot product on rational lists. -/
theorem dotQ_sq_le (v1 : List ℚ) : ∀ (v2 : List ℚ),
    dotQ v1 v2 ^ 2 ≤ sumsqQ v1 * sumsqQ v2 := by
  induction v1 with
  | nil =>
    intro v2
    simp [dotQ, sumsqQ]
  | cons a t ih =>
    intro v2
    cases v2 with
    | nil =>
      simp [dotQ, sumsqQ]
    | cons b u =>
      have hd : dotQ (a :: t) (b :: u) = a * b + dotQ t u := by simp [dotQ]
      have h1 : sumsqQ (a :: t) = a * a + sumsqQ t := by simp [sumsqQ]
      have h2 : sumsqQ (b :: u) = b * b + sumsqQ u := by simp [sumsqQ]
      have hAB := ih u
      have hA := sumsqQ_nonneg t
      have hB := sumsqQ_nonneg u
      rw [hd, h1, h2]
      by_cases hB0 : sumsqQ u = 0
      · have hd2 : dotQ t u ^ 2 = 0 := by
          have hup : (0 : ℚ) ≤ dotQ t u ^ 2 := sq_nonneg _
          have hdown : dotQ t u ^ 2 ≤ 0 := by rw [hB0] at hAB; linarith
          linarith
        have hd0 : dotQ t u = 0 := by
          exact pow_eq_zero_iff (two_ne_zero) |>.mp hd2
        rw [hd0, hB0]
        nlinarith [mul_nonneg hA (sq_nonneg b)]
      · have hBpos : 0 < sumsqQ u := lt_of_le_of_ne hB (Ne.symm hB0)
        nlinarith [hBpos, sq_nonneg (a * sumsqQ u - b * dotQ t u),
          mul_nonneg (sq_nonneg b) (sub_nonneg.mpr hAB),
          mul_nonneg hB (sub_nonneg.mpr hAB)]

/-- C9.  For equal-length vectors, when both norms are non-zero the cosine
similarity lies in `[-1, 1]` (Cauchy-Schwarz); when either vector has zero
norm the function returns exactly `0.0` by its guard, so the division is
never executed with a zero denominator. -/
theorem cosine_similarity_bounds_and_zero_guard (vec1 vec2 : List ℚ)
    (_hlen : vec1.length = vec2.length) :
    (normR vec1 ≠ 0 → normR vec2 ≠ 0 →
      -1 ≤ _cosine_similarity vec1 vec2 ∧ _cosine_similarity vec1 vec2 ≤ 1) ∧
    ((normR vec1 = 0 ∨ normR vec2 = 0) → _cosine_similarity vec1 vec2 = 0) := by
  constructor
  · intro h1 h2
    have hA : (0 : ℝ) ≤ ((sumsqQ vec1 : ℚ) : ℝ) := by
      exact_mod_cast sumsqQ_nonneg vec1
    have hB : (0 : ℝ) ≤ ((sumsqQ vec2 : ℚ) : ℝ) := by
      exact_mod_cast sumsqQ_nonneg vec2
    have hn1 : 0 < normR vec1 :=
      lt_of_le_of_ne (Real.sqrt_nonneg _) (Ne.symm h1)
    have hn2 : 0 < normR vec2 :=
      lt_of_le_of_ne (Real.sqrt_nonneg _) (Ne.symm h2)
    have hprod : 0 < normR vec1 * normR vec2 := mul_pos hn1 hn2
    have hcs : (((dotQ vec1 vec2 : ℚ) : ℝ)) ^ 2 ≤
        ((sumsqQ vec1 : ℚ) : ℝ) * ((sumsqQ vec2 : ℚ) : ℝ) := by
      exact_mod_cast dotQ_sq_le vec1 vec2
    have habs : |((dotQ vec1 vec2 : ℚ) : ℝ)| ≤ normR vec1 * normR vec2 := by
      have hs1 : |((dotQ vec1 vec2 : ℚ) : ℝ)| =
          Real.sqrt (((dotQ vec1 vec2 : ℚ) : ℝ) ^ 2) :=
        (Real.sqrt_sq_eq_abs _).symm
      rw [hs1, normR, normR, ← Real.sqrt_mul hA]
      exact Real.sqrt_le_sqrt hcs
    rw [abs_le] at habs
    rw [_cosine_similarity]
    rw [if_neg (by push_neg; exact ⟨h1, h2⟩)]
    constructor
    · rw [le_div_iff₀ hprod]
      linarith [habs.1]
    · rw [div_le_one hprod]
      exact habs.2
  · intro h
    rw [_cosine_similarity, if_pos h]

/-- C9, witness: orthogonal unit vectors have cosine similarity within the
bounds, and a zero vector yields exactly `0`. -/
theorem cosine_similarity_bounds_witness :
    (-1 ≤ _cosine_similarity [1, 0] [0, 1] ∧ _cosine_similarity [1, 0] [0, 1] ≤ 1) ∧
    _cosine_similarity [0, 0] [1, 1] = 0 :=
  ⟨(cosine_similarity_bounds_and_zero_guard [1, 0] [0, 1] rfl).1
      (by simp [normR, sumsqQ]) (by simp [normR, sumsqQ]),
   (cosine_similarity_bounds_and_zero_guard [0, 0] [1, 1] rfl).2
      (Or.inl (by simp [normR, sumsqQ]))⟩

end TraeGuard
